import Mathlib

/-!
Verification of the compression core of `pdf_compressor.py` (PDF Compressor Pro).

The embedding models the document data the script manipulates through PyMuPDF:
a document is an ordered list of pages plus a shared resource table mapping
xrefs to image byte streams.  The external libraries (PyMuPDF rendering,
Pillow decode/encode) are black boxes; each fallible pipeline is a function
parameter returning `Option` (`none` models a raised exception), exactly the
contract in the source's `try`/`except` blocks.
-/

namespace PDFCompressor

/-- Byte strings, modelled as lists of byte values. -/
abbrev Bytes := List Nat

/-- The document-level resource table: association list from xref
(cross-reference id) to the stored image bytes. -/
abbrev ResTable := List (Nat × Bytes)

/-- Extraction, as in `doc.extract_image(xref)`: fetches the bytes stored
for `xref`; a missing xref raises (modelled as `none`). -/
def lookupRes : ResTable → Nat → Option Bytes
  | [], _ => none
  | (k, v) :: r, x => if k = x then some v else lookupRes r x

/-- Replacement, as in `page.update_image(bytes, xref=xref)`: replaces the
stream stored at `xref` in the shared resource table, leaving every other
entry unchanged. -/
def updateRes : ResTable → Nat → Bytes → ResTable
  | [], _, _ => []
  | (k, v) :: r, x, b => if k = x then (k, b) :: r else (k, v) :: updateRes r x b

/-- A page: its rectangle geometry (`page.rect.width` / `page.rect.height`)
and the xrefs returned by `page.get_images(full=True)`. -/
structure Page where
  width : ℚ
  height : ℚ
  images : List Nat
deriving Repr, DecidableEq

/-- A `fitz.Document`: ordered pages plus the shared resource table. -/
structure Document where
  pages : List Page
  resources : ResTable
deriving Repr, DecidableEq

/-- All image xrefs enumerated over all pages of a document. -/
def allImageXrefs (doc : Document) : List Nat :=
  doc.pages.flatMap Page.images

/-- The fallible codec pipeline applied to one embedded image inside the
`try` block of `compress_smart`: `doc.extract_image(xref)` followed by
`PIL.Image.open` + `save(format="JPEG", quality=quality, optimize=True)` +
`page.update_image`.  `enc` abstracts the Pillow decode/re-encode step;
`none` anywhere models a raised exception. -/
def processImage (enc : Bytes → Nat → Option Bytes) (res : ResTable)
    (x : Nat) (q : Nat) : Option Bytes :=
  match lookupRes res x with
  | none => none
  | some b => enc b q

/-- Inner loop of `compress_smart` over one page's image list: for each image
`total_images += 1`; the attempt either succeeds (resource replaced,
`image_count += 1`) or the `except` clause `continue`s with everything
untouched. -/
def smartImages (enc : Bytes → Nat → Option Bytes) (q : Nat) :
    List Nat → ResTable → Nat → Nat → ResTable × Nat × Nat
  | [], res, cnt, tot => (res, cnt, tot)
  | x :: xs, res, cnt, tot =>
    match processImage enc res x q with
    | some b => smartImages enc q xs (updateRes res x b) (cnt + 1) (tot + 1)
    | none => smartImages enc q xs res cnt (tot + 1)

/-- Outer loop of `compress_smart` over the document's pages. -/
def smartPages (enc : Bytes → Nat → Option Bytes) (q : Nat) :
    List Page → ResTable → Nat → Nat → ResTable × Nat × Nat
  | [], res, cnt, tot => (res, cnt, tot)
  | p :: ps, res, cnt, tot =>
    let r := smartImages enc q p.images res cnt tot
    smartPages enc q ps r.1 r.2.1 r.2.2

/-- The function `compress_smart(doc, quality)`: mutates `doc` in place
(here: returns the updated document) and returns `image_count`;
`total_images` is the third component (printed by the source). -/
def compress_smart (enc : Bytes → Nat → Option Bytes) (doc : Document)
    (q : Nat) : Document × Nat × Nat :=
  let r := smartPages enc q doc.pages doc.resources 0 0
  ({ doc with resources := r.1 }, r.2.1, r.2.2)

/-- Loop body of `compress_aggressive`: each input page is rendered
(`page.get_pixmap(dpi=150)` + Pillow JPEG re-encode, abstracted as `render`),
then `output_doc.new_page(width=page.rect.width, height=page.rect.height)`
and `new_page.insert_image(page.rect, stream=...)`.  Output xrefs are
enumerated from `i`.  No `try` guards this loop: a `none` from `render`
aborts the whole computation. -/
def aggrPages (render : Page → Nat → Option Bytes) (q : Nat) :
    List Page → Nat → Option (List Page × ResTable)
  | [], _ => some ([], [])
  | p :: ps, i =>
    match render p q with
    | none => none
    | some b =>
      match aggrPages render q ps (i + 1) with
      | none => none
      | some r =>
        some ({ width := p.width, height := p.height, images := [i] } :: r.1,
              (i, b) :: r.2)

/-- The function `compress_aggressive(doc, quality)`: builds a fresh output
document (`fitz.open()`), one single-image page per input page; any
rendering or encoding error propagates to the caller (modelled as `none`). -/
def compress_aggressive (render : Page → Nat → Option Bytes) (doc : Document)
    (q : Nat) : Option Document :=
  match aggrPages render q doc.pages 0 with
  | none => none
  | some r => some { pages := r.1, resources := r.2 }

/-- The document handed to `doc.save` / `output_doc.save` in `main`:
smart mode saves the mutated input document itself; aggressive mode saves
the fresh document returned by `compress_aggressive`. -/
inductive Mode
  | smart
  | aggressive
deriving Repr, DecidableEq

def docToSave (enc : Bytes → Nat → Option Bytes)
    (render : Page → Nat → Option Bytes) (mode : Mode) (doc : Document)
    (q : Nat) : Option Document :=
  match mode with
  | .smart => some (compress_smart enc doc q).1
  | .aggressive => compress_aggressive render doc q

/-- The four compression profiles of `COMPRESSION_PROFILES`. -/
inductive Profile
  | low
  | medium
  | high
  | best
deriving Repr, DecidableEq

def COMPRESSION_PROFILES : Profile → Int
  | .low => 20
  | .medium => 40
  | .high => 60
  | .best => 80

def profileString : Profile → String
  | .low => "low"
  | .medium => "medium"
  | .high => "high"
  | .best => "best"

/-- The quality-resolution logic of `main` (lines 187-195).  `args.quality`
is `Option Int` (argparse `type=int`, absent is `None`).  The source guards
with Python truthiness `if args.quality:`, which is false both for `None`
and for the integer `0`; only a present, non-zero quality reaches the range
check `1 <= args.quality <= 95`, whose failure calls `sys.exit(1)`
(modelled as `Except.error`). -/
def resolveQuality (quality : Option Int) (profile : Profile) :
    Except Unit (Int × String) :=
  match quality with
  | some q =>
    if q ≠ 0 then
      if 1 ≤ q ∧ q ≤ 95 then Except.ok (q, "custom") else Except.error ()
    else Except.ok (COMPRESSION_PROFILES profile, profileString profile)
  | none => Except.ok (COMPRESSION_PROFILES profile, profileString profile)

/-- Observable resource/file events of one `main` run, in program order. -/
inductive Ev
  | openInput      -- `doc = fitz.open(args.input_file)`
  | createOutput   -- `fitz.open()` at the top of `compress_aggressive`
  | saveOutput     -- `doc.save(...)` / `output_doc.save(...)` completed
  | closeOutput    -- `output_doc.close()`
  | closeInput     -- `doc.close()` in the `finally` block
  | removeOutput   -- `os.remove(output_path)` in the failure report
  | reportSuccess  -- the "Compression Successful!" block
  | reportFailure  -- the "Compression Failed." block
deriving Repr, DecidableEq

/-- Nondeterministic outcomes of the external-library calls made inside the
`try` block of `main`: whether `fitz.open` succeeds, whether rasterization
inside `compress_aggressive` succeeds (smart mode's per-image failures are
caught internally and never raise), whether the final `save` succeeds, and
whether a failing save left a partially written file on disk. -/
structure Env where
  openOk : Bool
  renderOk : Bool
  saveOk : Bool
  saveLeftFile : Bool
  compressedSize : Nat
deriving Repr, DecidableEq

/-- The `try` block of `main` (lines 216-234): produces the event list, the
`success` flag, and whether the output file exists afterwards.  In aggressive
mode `fitz.open()` (creating the output handle) is the first statement of
`compress_aggressive`, so the handle exists even when a later page render
raises; `output_doc.close()` runs only after `output_doc.save` returns. -/
def tryBlock (mode : Mode) (env : Env) : List Ev × Bool × Bool :=
  if env.openOk then
    match mode with
    | .smart =>
      if env.saveOk then ([Ev.openInput, Ev.saveOutput], true, true)
      else ([Ev.openInput], false, env.saveLeftFile)
    | .aggressive =>
      if env.renderOk then
        if env.saveOk then
          ([Ev.openInput, Ev.createOutput, Ev.saveOutput, Ev.closeOutput],
           true, true)
        else ([Ev.openInput, Ev.createOutput], false, env.saveLeftFile)
      else ([Ev.openInput, Ev.createOutput], false, false)
  else ([], false, false)

/-- The `finally` block: `if doc: doc.close()` — `doc` is still `None` when
`fitz.open` itself raised. -/
def finallyBlock (env : Env) : List Ev :=
  if env.openOk then [Ev.closeInput] else []

/-- The expression `reduction_percent` of line 242, computed as the source
does:
both sizes are first divided by `1024 * 1024` (MB), the division is guarded
by `original_size_mb > 0`, otherwise the reported reduction is `0`. -/
def reduction_percent (origBytes compBytes : Nat) : ℚ :=
  let om : ℚ := (origBytes : ℚ) / (1024 * 1024)
  let cm : ℚ := (compBytes : ℚ) / (1024 * 1024)
  if om > 0 then (1 - cm / om) * 100 else 0

/-- The report section of `main` (lines 240-257): on `success and
os.path.exists(output_path)` print the success block with the reduction;
otherwise print the failure block and remove the output file if it exists.
Returns the events and the reported reduction (if any). -/
def reportBlock (success : Bool) (outputExists : Bool)
    (origBytes compBytes : Nat) : List Ev × Option ℚ :=
  if success ∧ outputExists then
    ([Ev.reportSuccess], some (reduction_percent origBytes compBytes))
  else
    (Ev.reportFailure :: (if outputExists then [Ev.removeOutput] else []),
     none)

/-- CLI-level inputs of one run as `main` sees them after argparse. -/
structure Args where
  inputExists : Bool   -- `os.path.isfile(args.input_file)`
  inputSize : Nat      -- `os.path.getsize(args.input_file)` in bytes
  quality : Option Int
  profile : Profile
  mode : Mode
  dirOk : Bool         -- `get_output_path` returned a path (dir created)
deriving Repr, DecidableEq

/-- The result of one `main` invocation: the process exit code, the events
of the try/finally/report sections, and the reported reduction percent. -/
structure MainResult where
  exitCode : Nat
  events : List Ev
  reported : Option ℚ
deriving Repr, DecidableEq

/-- The function `main` (lines 180-257) plus the process exit:
`sys.exit(1)` on a missing
input file, on an out-of-range (truthy) quality, or when `get_output_path`
fails; otherwise the try/finally/report sections run and `main` returns
normally, so the interpreter exits with code 0 whether or not compression
succeeded. -/
def runMain (args : Args) (env : Env) : MainResult :=
  if ¬ args.inputExists then ⟨1, [], none⟩
  else
    match resolveQuality args.quality args.profile with
    | Except.error _ => ⟨1, [], none⟩
    | Except.ok _ =>
      if ¬ args.dirOk then ⟨1, [], none⟩
      else
        let t := tryBlock args.mode env
        let r := reportBlock t.2.1 t.2.2 args.inputSize env.compressedSize
        ⟨0, t.1 ++ finallyBlock env ++ r.1, r.2⟩

/-- The geometry of a page, `(page.rect.width, page.rect.height)`. -/
def pageGeom (p : Page) : ℚ × ℚ :=
  (p.width, p.height)

/-- Restriction of a resource table to the entries whose xref is NOT in
`ks`; used to state that a pass leaves all non-image resources untouched. -/
def dropKeys (res : ResTable) (ks : List Nat) : ResTable :=
  res.filter (fun kv => decide (kv.1 ∉ ks))

/-! ### Resource-table lemmas -/

theorem lookupRes_updateRes_ne (res : ResTable) (y : Nat) (b : Bytes)
    (x : Nat) (hxy : x ≠ y) :
    lookupRes (updateRes res y b) x = lookupRes res x := by
  induction res with
  | nil => rfl
  | cons kv r ih =>
    obtain ⟨k, v⟩ := kv
    by_cases hk : k = y
    · subst hk
      simp [updateRes, lookupRes, Ne.symm hxy]
    · by_cases hx : k = x <;> simp [updateRes, lookupRes, hk, hx, hxy, ih]

theorem processImage_congr (enc : Bytes → Nat → Option Bytes)
    (r1 r2 : ResTable) (x q : Nat) (h : lookupRes r1 x = lookupRes r2 x) :
    processImage enc r1 x q = processImage enc r2 x q := by
  simp only [processImage, h]

theorem dropKeys_cons (k : Nat) (v : Bytes) (r : ResTable) (ks : List Nat) :
    dropKeys ((k, v) :: r) ks =
      if k ∈ ks then dropKeys r ks else (k, v) :: dropKeys r ks := by
  by_cases h : k ∈ ks <;> simp [dropKeys, List.filter_cons, h]

theorem dropKeys_updateRes_mem (res : ResTable) (ks : List Nat) (y : Nat)
    (b : Bytes) (hy : y ∈ ks) :
    dropKeys (updateRes res y b) ks = dropKeys res ks := by
  induction res with
  | nil => rfl
  | cons kv r ih =>
    obtain ⟨k, v⟩ := kv
    by_cases hk : k = y
    · subst hk
      simp [updateRes, dropKeys_cons, hy]
    · simp only [updateRes, if_neg hk, dropKeys_cons]
      by_cases hks : k ∈ ks <;> simp [hks, ih]

/-! ### Smart-compressor lemmas -/

theorem smartImages_lookup_eq (enc : Bytes → Nat → Option Bytes) (q x : Nat)
    (res0 : ResTable) (hfail : processImage enc res0 x q = none) :
    ∀ (xs : List Nat) (res : ResTable) (cnt tot : Nat),
      lookupRes res x = lookupRes res0 x →
      lookupRes (smartImages enc q xs res cnt tot).1 x = lookupRes res0 x := by
  intro xs
  induction xs with
  | nil => intro res cnt tot h; simpa [smartImages] using h
  | cons y ys ih =>
    intro res cnt tot h
    cases hp : processImage enc res y q with
    | none =>
      simp only [smartImages, hp]
      exact ih _ _ _ h
    | some b =>
      have hxy : x ≠ y := by
        intro e
        subst e
        rw [processImage_congr enc res res0 x q h, hfail] at hp
        exact Option.noConfusion hp
      simp only [smartImages, hp]
      exact ih _ _ _ (by rw [lookupRes_updateRes_ne _ _ _ _ hxy]; exact h)

theorem smartImages_total (enc : Bytes → Nat → Option Bytes) (q : Nat) :
    ∀ (xs : List Nat) (res : ResTable) (cnt tot : Nat),
      (smartImages enc q xs res cnt tot).2.2 = tot + xs.length := by
  intro xs
  induction xs with
  | nil => intro res cnt tot; simp [smartImages]
  | cons y ys ih =>
    intro res cnt tot
    cases hp : processImage enc res y q with
    | none => simp only [smartImages, hp]; rw [ih]; simp; omega
    | some b => simp only [smartImages, hp]; rw [ih]; simp; omega

theorem smartImages_count_le (enc : Bytes → Nat → Option Bytes) (q : Nat) :
    ∀ (xs : List Nat) (res : ResTable) (cnt tot : Nat), cnt ≤ tot →
      (smartImages enc q xs res cnt tot).2.1 ≤
        (smartImages enc q xs res cnt tot).2.2 := by
  intro xs
  induction xs with
  | nil => intro res cnt tot h; simpa [smartImages] using h
  | cons y ys ih =>
    intro res cnt tot h
    cases hp : processImage enc res y q with
    | none =>
      simp only [smartImages, hp]
      exact ih _ _ _ (by omega)
    | some b =>
      simp only [smartImages, hp]
      exact ih _ _ _ (by omega)

theorem smartImages_dropKeys (enc : Bytes → Nat → Option Bytes) (q : Nat)
    (ks : List Nat) :
    ∀ (xs : List Nat) (res : ResTable) (cnt tot : Nat),
      (∀ y ∈ xs, y ∈ ks) →
      dropKeys (smartImages enc q xs res cnt tot).1 ks = dropKeys res ks := by
  intro xs
  induction xs with
  | nil => intro res cnt tot _; simp [smartImages]
  | cons y ys ih =>
    intro res cnt tot hsub
    cases hp : processImage enc res y q with
    | none =>
      simp only [smartImages, hp]
      exact ih _ _ _ fun z hz => hsub z (List.mem_cons_of_mem _ hz)
    | some b =>
      simp only [smartImages, hp]
      rw [ih _ _ _ fun z hz => hsub z (List.mem_cons_of_mem _ hz)]
      exact dropKeys_updateRes_mem _ _ _ _ (hsub y (List.mem_cons_self _ _))

theorem smartPages_lookup_eq (enc : Bytes → Nat → Option Bytes) (q x : Nat)
    (res0 : ResTable) (hfail : processImage enc res0 x q = none) :
    ∀ (ps : List Page) (res : ResTable) (cnt tot : Nat),
      lookupRes res x = lookupRes res0 x →
      lookupRes (smartPages enc q ps res cnt tot).1 x = lookupRes res0 x := by
  intro ps
  induction ps with
  | nil => intro res cnt tot h; simpa [smartPages] using h
  | cons p ps ih =>
    intro res cnt tot h
    simp only [smartPages]
    exact ih _ _ _ (smartImages_lookup_eq enc q x res0 hfail p.images res cnt tot h)

theorem smartPages_total (enc : Bytes → Nat → Option Bytes) (q : Nat) :
    ∀ (ps : List Page) (res : ResTable) (cnt tot : Nat),
      (smartPages enc q ps res cnt tot).2.2 =
        tot + (ps.flatMap Page.images).length := by
  intro ps
  induction ps with
  | nil => intro res cnt tot; simp [smartPages]
  | cons p ps ih =>
    intro res cnt tot
    simp only [smartPages]
    rw [ih, smartImages_total]
    simp [List.flatMap_cons]
    omega

theorem smartPages_count_le (enc : Bytes → Nat → Option Bytes) (q : Nat) :
    ∀ (ps : List Page) (res : ResTable) (cnt tot : Nat), cnt ≤ tot →
      (smartPages enc q ps res cnt tot).2.1 ≤
        (smartPages enc q ps res cnt tot).2.2 := by
  intro ps
  induction ps with
  | nil => intro res cnt tot h; simpa [smartPages] using h
  | cons p ps ih =>
    intro res cnt tot h
    simp only [smartPages]
    refine ih _ _ _ ?_
    have h1 := smartImages_count_le enc q p.images res cnt tot h
    have h2 := smartImages_total enc q p.images res cnt tot
    omega

theorem smartPages_dropKeys (enc : Bytes → Nat → Option Bytes) (q : Nat)
    (ks : List Nat) :
    ∀ (ps : List Page) (res : ResTable) (cnt tot : Nat),
      (∀ p ∈ ps, ∀ y ∈ p.images, y ∈ ks) →
      dropKeys (smartPages enc q ps res cnt tot).1 ks = dropKeys res ks := by
  intro ps
  induction ps with
  | nil => intro res cnt tot _; simp [smartPages]
  | cons p ps ih =>
    intro res cnt tot hsub
    simp only [smartPages]
    rw [ih _ _ _ fun a ha => hsub a (List.mem_cons_of_mem _ ha)]
    exact smartImages_dropKeys enc q ks p.images res cnt tot
      (hsub p (List.mem_cons_self _ _))

/-! ### Aggressive-compressor lemmas -/

theorem aggrPages_geom (render : Page → Nat → Option Bytes) (q : Nat) :
    ∀ (ps : List Page) (i : Nat) (r : List Page × ResTable),
      aggrPages render q ps i = some r →
      r.1.map pageGeom = ps.map pageGeom := by
  intro ps
  induction ps with
  | nil =>
    intro i r h
    simp only [aggrPages, Option.some.injEq] at h
    subst h
    simp
  | cons p ps ih =>
    intro i r h
    cases hr : render p q with
    | none => simp [aggrPages, hr] at h
    | some b =>
      cases ha : aggrPages render q ps (i + 1) with
      | none => simp [aggrPages, hr, ha] at h
      | some r' =>
        simp only [aggrPages, hr, ha, Option.some.injEq] at h
        subst h
        simp [pageGeom, ih (i + 1) r' ha]

theorem aggrPages_fail (render : Page → Nat → Option Bytes) (q : Nat)
    (p : Page) (hfail : render p q = none) :
    ∀ (ps : List Page) (i : Nat), p ∈ ps →
      aggrPages render q ps i = none := by
  intro ps
  induction ps with
  | nil => intro i hp; cases hp
  | cons a ps ih =>
    intro i hp
    rcases List.mem_cons.mp hp with rfl | hp'
    · simp [aggrPages, hfail]
    · cases ha : render a q with
      | none => simp [aggrPages, ha]
      | some b => simp [aggrPages, ha, ih (i + 1) hp']

/-! ### Orchestrator lemmas -/

theorem tryBlock_success_out (mode : Mode) (env : Env)
    (h : (tryBlock mode env).2.1 = true) : (tryBlock mode env).2.2 = true := by
  cases mode <;> cases ho : env.openOk <;> cases hr : env.renderOk <;>
    cases hs : env.saveOk <;> simp_all [tryBlock]

theorem reduction_percent_pos (o c : Nat) (h : 0 < o) :
    reduction_percent o c = (1 - (c : ℚ) / (o : ℚ)) * 100 := by
  have ho : (0 : ℚ) < (o : ℚ) := by exact_mod_cast h
  have hne : (o : ℚ) ≠ 0 := ne_of_gt ho
  have hom : (0 : ℚ) < (o : ℚ) / (1024 * 1024) := by positivity
  have hdiv : (c : ℚ) / (1024 * 1024) / ((o : ℚ) / (1024 * 1024)) =
      (c : ℚ) / (o : ℚ) := by
    rw [div_div_div_cancel_right₀]
    norm_num
  simp only [reduction_percent]
  rw [if_pos hom, hdiv]

/-! ### Claim theorems -/

/-- C1: whenever the aggressive compressor produces an output document, that
document has exactly the same number of pages as the input document, and
for every page index the output page width and height equal the
corresponding input page width and height (the per-index geometries, listed
in order, coincide). -/
theorem aggressive_preserves_geometry (render : Page → Nat → Option Bytes)
    (doc : Document) (q : Nat) (out : Document)
    (h : compress_aggressive render doc q = some out) :
    out.pages.length = doc.pages.length ∧
    out.pages.map pageGeom = doc.pages.map pageGeom := by
  cases ha : aggrPages render q doc.pages 0 with
  | none =>
    rw [compress_aggressive, ha] at h
    exact Option.noConfusion h
  | some r =>
    rw [compress_aggressive, ha] at h
    simp only [Option.some.injEq] at h
    subst h
    have hg := aggrPages_geom render q doc.pages 0 r ha
    refine ⟨?_, hg⟩
    have := congrArg List.length hg
    simpa using this

/-- Witness for C1 at a concrete two-page document. -/
theorem aggressive_preserves_geometry_witness :
    (Document.mk [Page.mk 10 20 [0], Page.mk 30 40 [1]]
        [(0, [5]), (1, [5])]).pages.length =
      (Document.mk [Page.mk 10 20 [], Page.mk 30 40 []] []).pages.length ∧
    (Document.mk [Page.mk 10 20 [0], Page.mk 30 40 [1]]
        [(0, [5]), (1, [5])]).pages.map pageGeom =
      (Document.mk [Page.mk 10 20 [], Page.mk 30 40 []] []).pages.map pageGeom :=
  aggressive_preserves_geometry (fun _ q => some [q])
    (Document.mk [Page.mk 10 20 [], Page.mk 30 40 []] []) 5
    (Document.mk [Page.mk 10 20 [0], Page.mk 30 40 [1]] [(0, [5]), (1, [5])])
    rfl

/-- C4: in aggressive mode an error raised while rendering or encoding any
single page is not caught inside the compressor: the whole computation
aborts with the propagated error and no output document is produced (in
contrast to the per-image recovery of the smart pass). -/
theorem aggressive_error_propagates (render : Page → Nat → Option Bytes)
    (doc : Document) (q : Nat) (p : Page) (hp : p ∈ doc.pages)
    (hfail : render p q = none) :
    compress_aggressive render doc q = none := by
  rw [compress_aggressive, aggrPages_fail render q p hfail doc.pages 0 hp]

/-- Witness for C4: a document whose single page fails to render yields no
output document at all. -/
theorem aggressive_error_propagates_witness :
    compress_aggressive (fun _ _ => none)
      (Document.mk [Page.mk 1 1 []] []) 5 = none :=
  aggressive_error_propagates (fun _ _ => none)
    (Document.mk [Page.mk 1 1 []] []) 5 (Page.mk 1 1 [])
    (List.mem_singleton.mpr rfl) rfl

/-- C3: in smart mode an embedded image whose extract/re-encode/replace
pipeline fails is only skipped: its resource bytes in the result equal the
original bytes, and the pass still visits every image reference of every
page (the reported total equals the number of references encountered), so a
single bad image never aborts the pass. -/
theorem smart_bad_image_skipped (enc : Bytes → Nat → Option Bytes)
    (doc : Document) (q x : Nat)
    (hfail : processImage enc doc.resources x q = none) :
    lookupRes (compress_smart enc doc q).1.resources x =
      lookupRes doc.resources x ∧
    (compress_smart enc doc q).2.2 = (allImageXrefs doc).length := by
  constructor
  · have := smartPages_lookup_eq enc q x doc.resources hfail doc.pages
      doc.resources 0 0 rfl
    simpa [compress_smart] using this
  · have := smartPages_total enc q doc.pages doc.resources 0 0
    simpa [compress_smart, allImageXrefs] using this

/-- Witness for C3: a one-page document with two images, the second of which
the codec cannot re-encode; its bytes survive and both images are counted. -/
theorem smart_bad_image_skipped_witness :
    lookupRes (compress_smart (fun b _ => if b = [1] then some [9] else none)
        (Document.mk [Page.mk 1 1 [1, 2]] [(1, [1]), (2, [7])]) 5).1.resources
        2 =
      lookupRes (Document.mk [Page.mk 1 1 [1, 2]]
        [(1, [1]), (2, [7])]).resources 2 ∧
    (compress_smart (fun b _ => if b = [1] then some [9] else none)
        (Document.mk [Page.mk 1 1 [1, 2]] [(1, [1]), (2, [7])]) 5).2.2 =
      (allImageXrefs (Document.mk [Page.mk 1 1 [1, 2]]
        [(1, [1]), (2, [7])])).length :=
  smart_bad_image_skipped (fun b _ => if b = [1] then some [9] else none)
    (Document.mk [Page.mk 1 1 [1, 2]] [(1, [1]), (2, [7])]) 5 2 rfl

/-- C9: compress_smart returns a success count that never exceeds the total
number of image references encountered, and that total counts every
reference of every page exactly once. -/
theorem smart_count_le_total (enc : Bytes → Nat → Option Bytes)
    (doc : Document) (q : Nat) :
    (compress_smart enc doc q).2.1 ≤ (compress_smart enc doc q).2.2 ∧
    (compress_smart enc doc q).2.2 = (allImageXrefs doc).length := by
  constructor
  · have := smartPages_count_le enc q doc.pages doc.resources 0 0 (le_refl 0)
    simpa [compress_smart] using this
  · have := smartPages_total enc q doc.pages doc.resources 0 0
    simpa [compress_smart, allImageXrefs] using this

/-- C7: the document saved in smart mode is exactly the document returned
by compress_smart — the mutated input, not a fresh document: its page list
is the input page list unchanged, and its resource table agrees with the
input table on every entry whose xref is not an embedded image reference
(only image resource bytes are replaced). -/
theorem smart_mutates_in_place (enc : Bytes → Nat → Option Bytes)
    (render : Page → Nat → Option Bytes) (doc : Document) (q : Nat) :
    docToSave enc render Mode.smart doc q =
      some (compress_smart enc doc q).1 ∧
    (compress_smart enc doc q).1.pages = doc.pages ∧
    dropKeys (compress_smart enc doc q).1.resources (allImageXrefs doc) =
      dropKeys doc.resources (allImageXrefs doc) := by
  refine ⟨rfl, rfl, ?_⟩
  have hsub : ∀ p ∈ doc.pages, ∀ y ∈ p.images, y ∈ allImageXrefs doc := by
    intro p hp y hy
    exact List.mem_flatMap.mpr ⟨p, hp, hy⟩
  have := smartPages_dropKeys enc q (allImageXrefs doc) doc.pages
    doc.resources 0 0 hsub
  simpa [compress_smart] using this

/-- C2: the guard of line 187 is `if args.quality:`, which is Python-falsy
for the integer 0 as well as for an absent quality, so `--quality 0` never
reaches the range check: the profile quality is silently used, the run
proceeds, saves the output file and exits with code 0 — while the other
out-of-range values 96 and -5 are rejected with exit code 1 and no events,
and every in-range value would be accepted as the custom quality. -/
theorem quality_zero_bypasses_validation :
    resolveQuality (some 0) Profile.medium = Except.ok (40, "medium") ∧
    resolveQuality (some 96) Profile.medium = Except.error () ∧
    resolveQuality (some (-5)) Profile.medium = Except.error () ∧
    runMain (Args.mk true 100 (some 96) Profile.medium Mode.smart true)
        (Env.mk true true true true 50) = MainResult.mk 1 [] none ∧
    (runMain (Args.mk true 100 (some 0) Profile.medium Mode.smart true)
        (Env.mk true true true true 50)).exitCode = 0 ∧
    Ev.saveOutput ∈
      (runMain (Args.mk true 100 (some 0) Profile.medium Mode.smart true)
        (Env.mk true true true true 50)).events :=
  ⟨rfl, rfl, rfl, rfl, rfl, by decide⟩

/-- C5 (amended): once validation has passed, a run in which an unhandled
error occurs during compression or save reports the failure and removes the
output file whenever one exists on disk — but `main` then returns normally,
so the process exit code is 0, the same as on success, not 1. -/
theorem failed_run_cleanup_exit_zero (args : Args) (env : Env)
    (qp : Int × String)
    (hin : args.inputExists = true)
    (hq : resolveQuality args.quality args.profile = Except.ok qp)
    (hdir : args.dirOk = true)
    (hfail : (tryBlock args.mode env).2.1 = false) :
    (runMain args env).exitCode = 0 ∧
    Ev.reportFailure ∈ (runMain args env).events ∧
    ((tryBlock args.mode env).2.2 = true →
      Ev.removeOutput ∈ (runMain args env).events) := by
  have hev : (runMain args env).events =
      (tryBlock args.mode env).1 ++ finallyBlock env ++
        (Ev.reportFailure ::
          (if (tryBlock args.mode env).2.2 then [Ev.removeOutput] else [])) := by
    simp [runMain, hin, hq, hdir, reportBlock, hfail]
  refine ⟨by simp [runMain, hin, hq, hdir], ?_, ?_⟩
  · rw [hev]; simp
  · intro hT; rw [hev]; simp [hT]

/-- Witness for the amended C5: a smart run whose save fails leaving a
partial file gets the file removed, a failure report, and exit code 0. -/
theorem failed_run_cleanup_exit_zero_witness :
    (runMain (Args.mk true 100 none Profile.medium Mode.smart true)
        (Env.mk true true false true 0)).exitCode = 0 ∧
    Ev.reportFailure ∈
      (runMain (Args.mk true 100 none Profile.medium Mode.smart true)
        (Env.mk true true false true 0)).events ∧
    ((tryBlock Mode.smart (Env.mk true true false true 0)).2.2 = true →
      Ev.removeOutput ∈
        (runMain (Args.mk true 100 none Profile.medium Mode.smart true)
          (Env.mk true true false true 0)).events) :=
  failed_run_cleanup_exit_zero
    (Args.mk true 100 none Profile.medium Mode.smart true)
    (Env.mk true true false true 0) (40, "medium") rfl rfl rfl rfl

/-- Counterexample to C5 as stated: in this failing run the partial output
file is removed, yet the process exit code is 0, not 1. -/
theorem failed_run_exit_code_cex :
    (runMain (Args.mk true 100 none Profile.medium Mode.smart true)
        (Env.mk true true false true 0)).exitCode ≠ 1 ∧
    Ev.reportFailure ∈
      (runMain (Args.mk true 100 none Profile.medium Mode.smart true)
        (Env.mk true true false true 0)).events ∧
    Ev.removeOutput ∈
      (runMain (Args.mk true 100 none Profile.medium Mode.smart true)
        (Env.mk true true false true 0)).events := by
  decide

/-- C6: on every successful run (validation passed, the try block set
`success`) with a non-empty input file, the reported size reduction equals
(1 - compressed_size / original_size) * 100 over the byte sizes of the
output and input files. -/
theorem success_reports_reduction_formula (args : Args) (env : Env)
    (qp : Int × String)
    (hin : args.inputExists = true)
    (hq : resolveQuality args.quality args.profile = Except.ok qp)
    (hdir : args.dirOk = true)
    (hsucc : (tryBlock args.mode env).2.1 = true)
    (hpos : 0 < args.inputSize) :
    (runMain args env).reported =
      some ((1 - (env.compressedSize : ℚ) / (args.inputSize : ℚ)) * 100) := by
  have hout := tryBlock_success_out args.mode env hsucc
  simp [runMain, hin, hq, hdir, reportBlock, hsucc, hout,
    reduction_percent_pos args.inputSize env.compressedSize hpos]

/-- Witness for C6: a 2 MiB input compressed to 1 MiB reports the exact
formula value. -/
theorem success_reports_reduction_formula_witness :
    (runMain (Args.mk true 2097152 none Profile.medium Mode.smart true)
        (Env.mk true true true true 1048576)).reported =
      some ((1 - (1048576 : ℚ) / (2097152 : ℚ)) * 100) :=
  success_reports_reduction_formula
    (Args.mk true 2097152 none Profile.medium Mode.smart true)
    (Env.mk true true true true 1048576) (40, "medium") rfl rfl rfl rfl
    (by norm_num)

/-- C8 (amended): in aggressive mode (input opened, validation passed) the
output document handle is created, and it is closed if and only if both the
page rendering and the save succeed; when the save fails the handle is left
unclosed — only the input document is closed by the finally block. -/
theorem aggressive_output_close_iff_save (args : Args) (env : Env)
    (qp : Int × String)
    (hin : args.inputExists = true)
    (hq : resolveQuality args.quality args.profile = Except.ok qp)
    (hdir : args.dirOk = true)
    (hmode : args.mode = Mode.aggressive)
    (hopen : env.openOk = true) :
    (Ev.closeOutput ∈ (runMain args env).events ↔
      env.renderOk = true ∧ env.saveOk = true) ∧
    Ev.createOutput ∈ (runMain args env).events ∧
    Ev.closeInput ∈ (runMain args env).events := by
  cases hr : env.renderOk <;> cases hs : env.saveOk <;>
    cases hl : env.saveLeftFile <;>
    simp [runMain, hin, hq, hdir, hmode, tryBlock, finallyBlock, reportBlock,
      hopen, hr, hs, hl]

/-- Witness for the amended C8: with rendering and save both succeeding the
output handle is closed, created, and the input handle closed. -/
theorem aggressive_output_close_iff_save_witness :
    (Ev.closeOutput ∈
        (runMain (Args.mk true 100 none Profile.medium Mode.aggressive true)
          (Env.mk true true true true 50)).events ↔
      (Env.mk true true true true 50).renderOk = true ∧
        (Env.mk true true true true 50).saveOk = true) ∧
    Ev.createOutput ∈
      (runMain (Args.mk true 100 none Profile.medium Mode.aggressive true)
        (Env.mk true true true true 50)).events ∧
    Ev.closeInput ∈
      (runMain (Args.mk true 100 none Profile.medium Mode.aggressive true)
        (Env.mk true true true true 50)).events :=
  aggressive_output_close_iff_save
    (Args.mk true 100 none Profile.medium Mode.aggressive true)
    (Env.mk true true true true 50) (40, "medium") rfl rfl rfl rfl rfl

/-- Counterexample to C8 as stated: in this aggressive run the save fails
and the created output handle is never closed. -/
theorem aggressive_output_unclosed_cex :
    Ev.createOutput ∈
      (runMain (Args.mk true 100 none Profile.medium Mode.aggressive true)
        (Env.mk true true false true 0)).events ∧
    Ev.closeOutput ∉
      (runMain (Args.mk true 100 none Profile.medium Mode.aggressive true)
        (Env.mk true true false true 0)).events ∧
    Ev.reportFailure ∈
      (runMain (Args.mk true 100 none Profile.medium Mode.aggressive true)
        (Env.mk true true false true 0)).events := by
  decide

/-- C10: on a successful run over a zero-byte input file the reported
reduction is 0: the division of the reduction formula is guarded by the
positive-original-size check, so no division by zero is performed. -/
theorem zero_input_reports_zero (args : Args) (env : Env)
    (qp : Int × String)
    (hin : args.inputExists = true)
    (hq : resolveQuality args.quality args.profile = Except.ok qp)
    (hdir : args.dirOk = true)
    (hsucc : (tryBlock args.mode env).2.1 = true)
    (hzero : args.inputSize = 0) :
    (runMain args env).reported = some 0 ∧
    reduction_percent args.inputSize env.compressedSize = 0 := by
  have hout := tryBlock_success_out args.mode env hsucc
  have h0 : reduction_percent args.inputSize env.compressedSize = 0 := by
    rw [hzero]
    simp [reduction_percent]
  exact ⟨by simp [runMain, hin, hq, hdir, reportBlock, hsucc, hout, h0], h0⟩

/-- Witness for C10: a successful run over an empty input reports 0. -/
theorem zero_input_reports_zero_witness :
    (runMain (Args.mk true 0 none Profile.medium Mode.smart true)
        (Env.mk true true true true 7)).reported = some 0 ∧
    reduction_percent
        (Args.mk true 0 none Profile.medium Mode.smart true).inputSize
        (Env.mk true true true true 7).compressedSize = 0 :=
  zero_input_reports_zero
    (Args.mk true 0 none Profile.medium Mode.smart true)
    (Env.mk true true true true 7) (40, "medium") rfl rfl rfl rfl rfl

end PDFCompressor
